import Mathlib

/-!
Verification of the mini-irc-chat repository.

Part 1 (`Wire`) embeds the wire protocol of `mini-irc-protocol/src/lib.rs`:
the `Request` / `Response` / `MessageReceiver` / `ChanOp` types, their
bincode-1.x serialization (fixint encoding: `u32` little-endian enum tags,
`u64` little-endian length prefixes for strings and byte vectors), and the
length-framed codec `TypedWriter::send` / `TypedReader::recv` in the
no-shared-key configuration (4-byte big-endian length prefix, truncating the
payload length to `u32`).  Rust `String`s appear on the wire as their UTF-8
bytes, so they are modelled as byte lists.

Part 2 (`Srv`) embeds the server session engine of `server/src/main.rs`:
the nickname registry, the channel map with subscriber-list tracking
(`BroadcastSenderWithList`), and one iteration of the `process` loop
(request dispatch, the forwarding task's filter, and the mailbox filter).
-/

namespace Wire

/-- Bytes of a Rust `String` (its UTF-8 encoding) or of a `Vec<u8>`. -/
abbrev Str := List Nat

/-- Mirrors `enum MessageReceiver` from `mini-irc-protocol/src/lib.rs`. -/
inductive MessageReceiver : Type where
  | User : Str → MessageReceiver
  | Channel : Str → MessageReceiver
deriving DecidableEq, Repr

/-- Mirrors `enum Request` from `mini-irc-protocol/src/lib.rs`, in source
declaration order (the order fixes the bincode variant tags). -/
inductive Request : Type where
  | Shared : Str → Request
  | Secure : Str → Request
  | Connect : Str → Request
  | JoinChan : Str → Request
  | LeaveChan : Str → Request
  | Message : MessageReceiver → Str → Request
deriving DecidableEq, Repr

/-- Mirrors `enum ChanOp` from `mini-irc-protocol/src/lib.rs`. -/
inductive ChanOp : Type where
  | Message : Str → Str → ChanOp
  | UserAdd : Str → ChanOp
  | UserDel : Str → ChanOp
deriving DecidableEq, Repr

/-- Mirrors `enum Response` from `mini-irc-protocol/src/lib.rs`, in source
declaration order. -/
inductive Response : Type where
  | Ack : Response
  | Secure : Str → Response
  | DirectMessage : Str → Str → Response
  | Channel : ChanOp → Str → Response
  | AckJoin : Str → List Str → Response
  | AckLeave : Str → Response
  | AckConnect : Str → Response
  | Error : Str → Response
deriving DecidableEq, Repr

/-- Little-endian 4-byte encoding of a `u32` (bincode fixint enum tag). -/
def u32ToLE (n : Nat) : List Nat :=
  [n % 256, n / 2 ^ 8 % 256, n / 2 ^ 16 % 256, n / 2 ^ 24 % 256]

/-- Little-endian 8-byte encoding of a `u64` (bincode length prefix). -/
def u64ToLE (n : Nat) : List Nat :=
  [n % 256, n / 2 ^ 8 % 256, n / 2 ^ 16 % 256, n / 2 ^ 24 % 256,
   n / 2 ^ 32 % 256, n / 2 ^ 40 % 256, n / 2 ^ 48 % 256, n / 2 ^ 56 % 256]

/-- Big-endian 4-byte encoding of a `u32`, as in
`(data.len() as u32).to_be_bytes()` of `TypedWriter::send`. -/
def u32ToBE (n : Nat) : List Nat :=
  [n / 2 ^ 24 % 256, n / 2 ^ 16 % 256, n / 2 ^ 8 % 256, n % 256]

/-- Reads a little-endian `u32` from the front of a byte list; fails when
fewer than 4 bytes remain (mirrors bincode running out of input). -/
def readU32LE : List Nat → Option (Nat × List Nat)
  | b0 :: b1 :: b2 :: b3 :: rest =>
      some (b0 + b1 * 2 ^ 8 + b2 * 2 ^ 16 + b3 * 2 ^ 24, rest)
  | _ => none

/-- Reads a little-endian `u64` from the front of a byte list. -/
def readU64LE : List Nat → Option (Nat × List Nat)
  | b0 :: b1 :: b2 :: b3 :: b4 :: b5 :: b6 :: b7 :: rest =>
      some (b0 + b1 * 2 ^ 8 + b2 * 2 ^ 16 + b3 * 2 ^ 24 + b4 * 2 ^ 32
            + b5 * 2 ^ 40 + b6 * 2 ^ 48 + b7 * 2 ^ 56, rest)
  | _ => none

/-- Takes `n` bytes from the front of a byte list; fails when fewer remain
(mirrors `read_exact` failing on a short read). -/
def readBytes (n : Nat) (b : List Nat) : Option (List Nat × List Nat) :=
  if n ≤ b.length then some (b.take n, b.drop n) else none

/-- Bincode encoding of a length-prefixed byte sequence: a Rust `String`
(UTF-8 bytes) or a `Vec<u8>`; `u64` length then the bytes themselves. -/
def serStr (s : Str) : List Nat := u64ToLE s.length ++ s

/-- Bincode decoding of a length-prefixed byte sequence. -/
def readStr (b : List Nat) : Option (Str × List Nat) :=
  match readU64LE b with
  | none => none
  | some (n, rest) => readBytes n rest

/-- Bincode encoding of the elements of a `Vec<String>`, in order. -/
def serStrEach : List Str → List Nat
  | [] => []
  | s :: t => serStr s ++ serStrEach t

/-- Bincode encoding of a `Vec<String>`: `u64` length then the elements. -/
def serStrList (l : List Str) : List Nat := u64ToLE l.length ++ serStrEach l

/-- Bincode decoding of `n` consecutive strings. -/
def readStrs : Nat → List Nat → Option (List Str × List Nat)
  | 0, b => some ([], b)
  | n + 1, b =>
    match readStr b with
    | none => none
    | some (s, r) =>
      match readStrs n r with
      | none => none
      | some (l, r2) => some (s :: l, r2)

/-- Bincode decoding of a `Vec<String>`. -/
def readStrList (b : List Nat) : Option (List Str × List Nat) :=
  match readU64LE b with
  | none => none
  | some (n, rest) => readStrs n rest

/-- Bincode encoding of a `MessageReceiver` (u32 variant tag, then the
field), as produced by `bincode::serialize`. -/
def serMessageReceiver : MessageReceiver → List Nat
  | .User s => u32ToLE 0 ++ serStr s
  | .Channel s => u32ToLE 1 ++ serStr s

/-- Bincode decoding of a `MessageReceiver`; an out-of-range variant tag is
a deserialization failure. -/
def readMessageReceiver (b : List Nat) : Option (MessageReceiver × List Nat) :=
  match readU32LE b with
  | none => none
  | some (t, rest) =>
    if t = 0 then (readStr rest).map fun p => (.User p.1, p.2)
    else if t = 1 then (readStr rest).map fun p => (.Channel p.1, p.2)
    else none

/-- Bincode encoding of a `Request`: u32 variant tag in declaration order,
then the fields in order. -/
def serRequest : Request → List Nat
  | .Shared k => u32ToLE 0 ++ serStr k
  | .Secure k => u32ToLE 1 ++ serStr k
  | .Connect s => u32ToLE 2 ++ serStr s
  | .JoinChan s => u32ToLE 3 ++ serStr s
  | .LeaveChan s => u32ToLE 4 ++ serStr s
  | .Message dst content => u32ToLE 5 ++ serMessageReceiver dst ++ serStr content

/-- Bincode decoding of a `Request`. -/
def readRequest (b : List Nat) : Option (Request × List Nat) :=
  match readU32LE b with
  | none => none
  | some (t, rest) =>
    if t = 0 then (readStr rest).map fun p => (.Shared p.1, p.2)
    else if t = 1 then (readStr rest).map fun p => (.Secure p.1, p.2)
    else if t = 2 then (readStr rest).map fun p => (.Connect p.1, p.2)
    else if t = 3 then (readStr rest).map fun p => (.JoinChan p.1, p.2)
    else if t = 4 then (readStr rest).map fun p => (.LeaveChan p.1, p.2)
    else if t = 5 then
      match readMessageReceiver rest with
      | none => none
      | some (dst, r) => (readStr r).map fun p => (.Message dst p.1, p.2)
    else none

/-- Bincode encoding of a `ChanOp`. -/
def serChanOp : ChanOp → List Nat
  | .Message src content => u32ToLE 0 ++ serStr src ++ serStr content
  | .UserAdd s => u32ToLE 1 ++ serStr s
  | .UserDel s => u32ToLE 2 ++ serStr s

/-- Bincode decoding of a `ChanOp`. -/
def readChanOp (b : List Nat) : Option (ChanOp × List Nat) :=
  match readU32LE b with
  | none => none
  | some (t, rest) =>
    if t = 0 then
      match readStr rest with
      | none => none
      | some (src, r) => (readStr r).map fun p => (.Message src p.1, p.2)
    else if t = 1 then (readStr rest).map fun p => (.UserAdd p.1, p.2)
    else if t = 2 then (readStr rest).map fun p => (.UserDel p.1, p.2)
    else none

/-- Bincode encoding of a `Response`. -/
def serResponse : Response → List Nat
  | .Ack => u32ToLE 0
  | .Secure k => u32ToLE 1 ++ serStr k
  | .DirectMessage src content => u32ToLE 2 ++ serStr src ++ serStr content
  | .Channel op chan => u32ToLE 3 ++ serChanOp op ++ serStr chan
  | .AckJoin chan users => u32ToLE 4 ++ serStr chan ++ serStrList users
  | .AckLeave s => u32ToLE 5 ++ serStr s
  | .AckConnect s => u32ToLE 6 ++ serStr s
  | .Error s => u32ToLE 7 ++ serStr s

/-- Bincode decoding of a `Response`. -/
def readResponse (b : List Nat) : Option (Response × List Nat) :=
  match readU32LE b with
  | none => none
  | some (t, rest) =>
    if t = 0 then some (.Ack, rest)
    else if t = 1 then (readStr rest).map fun p => (.Secure p.1, p.2)
    else if t = 2 then
      match readStr rest with
      | none => none
      | some (src, r) => (readStr r).map fun p => (.DirectMessage src p.1, p.2)
    else if t = 3 then
      match readChanOp rest with
      | none => none
      | some (op, r) => (readStr r).map fun p => (.Channel op p.1, p.2)
    else if t = 4 then
      match readStr rest with
      | none => none
      | some (chan, r) => (readStrList r).map fun p => (.AckJoin chan p.1, p.2)
    else if t = 5 then (readStr rest).map fun p => (.AckLeave p.1, p.2)
    else if t = 6 then (readStr rest).map fun p => (.AckConnect p.1, p.2)
    else if t = 7 then (readStr rest).map fun p => (.Error p.1, p.2)
    else none

/-- Models `bincode::deserialize::<Request>(&buf)` on a whole buffer: the
bincode-1.x legacy configuration permits trailing bytes, so only the decoded
value is kept; `none` is a deserialization failure. -/
def desRequest (b : List Nat) : Option Request :=
  match readRequest b with
  | none => none
  | some (v, _) => some v

/-- Models `bincode::deserialize::<Response>(&buf)` on a whole buffer. -/
def desResponse (b : List Nat) : Option Response :=
  match readResponse b with
  | none => none
  | some (v, _) => some v

/-- Models `TypedWriter::send` (equally `AsyncTypedWriter::send`) with no
shared key: the bytes written to the stream are the 4-byte big-endian
`data.len() as u32` (a truncating cast, hence mod `2 ^ 32`) followed by the
bincode payload. -/
def sendRequest (v : Request) : List Nat :=
  u32ToBE ((serRequest v).length % 2 ^ 32) ++ serRequest v

/-- Models `TypedWriter::send` for a `Response` with no shared key. -/
def sendResponse (v : Response) : List Nat :=
  u32ToBE ((serResponse v).length % 2 ^ 32) ++ serResponse v

/-- Models `TypedReader::recv` (equally `AsyncTypedReader::recv`) with no
shared key, on a byte stream: read exactly 4 big-endian length bytes, then
exactly that many payload bytes, then bincode-deserialize the payload.
`none` models an `Err` of the underlying `read_exact` (short stream);
`some (none, rest)` models `Ok(None)` (well-framed but malformed payload);
`some (some v, rest)` models `Ok(Some v)`.  `rest` is the unconsumed
remainder of the stream. -/
def recvRequest : List Nat → Option (Option Request × List Nat)
  | b0 :: b1 :: b2 :: b3 :: rest =>
    match readBytes (b0 * 2 ^ 24 + b1 * 2 ^ 16 + b2 * 2 ^ 8 + b3) rest with
    | none => none
    | some (payload, rest2) => some (desRequest payload, rest2)
  | _ => none

/-- Models `TypedReader::recv` for a `Response` with no shared key. -/
def recvResponse : List Nat → Option (Option Response × List Nat)
  | b0 :: b1 :: b2 :: b3 :: rest =>
    match readBytes (b0 * 2 ^ 24 + b1 * 2 ^ 16 + b2 * 2 ^ 8 + b3) rest with
    | none => none
    | some (payload, rest2) => some (desResponse payload, rest2)
  | _ => none

/-- Constructibility of a wire string: a Rust `String` or `Vec<u8>` lives in
memory, so its byte length fits in `usize` (64 bits). -/
def StrWf (s : Str) : Prop := s.length < 2 ^ 64

instance (s : Str) : Decidable (StrWf s) := by unfold StrWf; infer_instance

/-- Constructibility of a `MessageReceiver` value. -/
def MessageReceiver.wf : MessageReceiver → Prop
  | .User s => StrWf s
  | .Channel s => StrWf s

instance (v : MessageReceiver) : Decidable v.wf := by
  cases v <;> unfold MessageReceiver.wf <;> infer_instance

/-- Constructibility of a `Request` value: every contained string and byte
vector fits in memory. -/
def Request.wf : Request → Prop
  | .Shared k => StrWf k
  | .Secure k => StrWf k
  | .Connect s => StrWf s
  | .JoinChan s => StrWf s
  | .LeaveChan s => StrWf s
  | .Message dst content => dst.wf ∧ StrWf content

instance (v : Request) : Decidable v.wf := by
  cases v <;> unfold Request.wf <;> infer_instance

/-- Constructibility of a `ChanOp` value. -/
def ChanOp.wf : ChanOp → Prop
  | .Message src content => StrWf src ∧ StrWf content
  | .UserAdd s => StrWf s
  | .UserDel s => StrWf s

instance (v : ChanOp) : Decidable v.wf := by
  cases v <;> unfold ChanOp.wf <;> infer_instance

/-- Constructibility of a `Response` value. -/
def Response.wf : Response → Prop
  | .Ack => True
  | .Secure k => StrWf k
  | .DirectMessage src content => StrWf src ∧ StrWf content
  | .Channel op chan => op.wf ∧ StrWf chan
  | .AckJoin chan users =>
      StrWf chan ∧ users.length < 2 ^ 64 ∧ ∀ s ∈ users, StrWf s
  | .AckLeave s => StrWf s
  | .AckConnect s => StrWf s
  | .Error s => StrWf s

instance (v : Response) : Decidable v.wf := by
  cases v <;> unfold Response.wf <;> infer_instance

end Wire

namespace Wire

theorem readBytes_exact (l rest : List Nat) :
    readBytes l.length (l ++ rest) = some (l, rest) := by
  simp [readBytes, List.take_left, List.drop_left]

theorem readBytes_short (n : Nat) (b : List Nat) (h : b.length < n) :
    readBytes n b = none := by
  simp [readBytes]
  omega

theorem readU32LE_u32ToLE (n : Nat) (rest : List Nat) (h : n < 2 ^ 32) :
    readU32LE (u32ToLE n ++ rest) = some (n, rest) := by
  simp [u32ToLE, readU32LE]
  omega

theorem readU64LE_u64ToLE (n : Nat) (rest : List Nat) (h : n < 2 ^ 64) :
    readU64LE (u64ToLE n ++ rest) = some (n, rest) := by
  simp [u64ToLE, readU64LE]
  omega

theorem readStr_serStr (s : Str) (rest : List Nat) (h : StrWf s) :
    readStr (serStr s ++ rest) = some (s, rest) := by
  unfold serStr readStr
  rw [List.append_assoc, readU64LE_u64ToLE s.length (s ++ rest) h]
  exact readBytes_exact s rest

theorem readStrs_serStrEach (l : List Str) (rest : List Nat)
    (h : ∀ s ∈ l, StrWf s) :
    readStrs l.length (serStrEach l ++ rest) = some (l, rest) := by
  induction l generalizing rest with
  | nil => simp [serStrEach, readStrs]
  | cons s t ih =>
    simp only [List.length_cons, serStrEach, List.append_assoc]
    rw [readStrs, readStr_serStr s _ (h s (by simp))]
    simp only [ih rest (fun x hx => h x (by simp [hx]))]

theorem readStrList_serStrList (l : List Str) (rest : List Nat)
    (hlen : l.length < 2 ^ 64) (h : ∀ s ∈ l, StrWf s) :
    readStrList (serStrList l ++ rest) = some (l, rest) := by
  unfold serStrList readStrList
  rw [List.append_assoc, readU64LE_u64ToLE l.length _ hlen]
  exact readStrs_serStrEach l rest h

theorem readMessageReceiver_ser (v : MessageReceiver) (rest : List Nat)
    (h : v.wf) :
    readMessageReceiver (serMessageReceiver v ++ rest) = some (v, rest) := by
  cases v with
  | User s =>
    unfold serMessageReceiver readMessageReceiver
    rw [List.append_assoc, readU32LE_u32ToLE 0 _ (by norm_num)]
    simp [readStr_serStr s rest h]
  | Channel s =>
    unfold serMessageReceiver readMessageReceiver
    rw [List.append_assoc, readU32LE_u32ToLE 1 _ (by norm_num)]
    simp [readStr_serStr s rest h]

theorem readRequest_ser (v : Request) (rest : List Nat) (h : v.wf) :
    readRequest (serRequest v ++ rest) = some (v, rest) := by
  cases v with
  | Shared k =>
    unfold serRequest readRequest
    rw [List.append_assoc, readU32LE_u32ToLE 0 _ (by norm_num)]
    simp [readStr_serStr k rest h]
  | Secure k =>
    unfold serRequest readRequest
    rw [List.append_assoc, readU32LE_u32ToLE 1 _ (by norm_num)]
    simp [readStr_serStr k rest h]
  | Connect s =>
    unfold serRequest readRequest
    rw [List.append_assoc, readU32LE_u32ToLE 2 _ (by norm_num)]
    simp [readStr_serStr s rest h]
  | JoinChan s =>
    unfold serRequest readRequest
    rw [List.append_assoc, readU32LE_u32ToLE 3 _ (by norm_num)]
    simp [readStr_serStr s rest h]
  | LeaveChan s =>
    unfold serRequest readRequest
    rw [List.append_assoc, readU32LE_u32ToLE 4 _ (by norm_num)]
    simp [readStr_serStr s rest h]
  | Message dst content =>
    obtain ⟨h1, h2⟩ := h
    unfold serRequest readRequest
    rw [List.append_assoc, List.append_assoc,
        readU32LE_u32ToLE 5 _ (by norm_num)]
    simp only [readMessageReceiver_ser dst _ h1]
    simp [readStr_serStr content rest h2]

theorem readChanOp_ser (v : ChanOp) (rest : List Nat) (h : v.wf) :
    readChanOp (serChanOp v ++ rest) = some (v, rest) := by
  cases v with
  | Message src content =>
    obtain ⟨h1, h2⟩ := h
    unfold serChanOp readChanOp
    rw [List.append_assoc, List.append_assoc,
        readU32LE_u32ToLE 0 _ (by norm_num)]
    simp only [readStr_serStr src _ h1]
    simp [readStr_serStr content rest h2]
  | UserAdd s =>
    unfold serChanOp readChanOp
    rw [List.append_assoc, readU32LE_u32ToLE 1 _ (by norm_num)]
    simp [readStr_serStr s rest h]
  | UserDel s =>
    unfold serChanOp readChanOp
    rw [List.append_assoc, readU32LE_u32ToLE 2 _ (by norm_num)]
    simp [readStr_serStr s rest h]

theorem readResponse_ser (v : Response) (rest : List Nat) (h : v.wf) :
    readResponse (serResponse v ++ rest) = some (v, rest) := by
  cases v with
  | Ack =>
    unfold serResponse readResponse
    rw [readU32LE_u32ToLE 0 _ (by norm_num)]
    simp
  | Secure k =>
    unfold serResponse readResponse
    rw [List.append_assoc, readU32LE_u32ToLE 1 _ (by norm_num)]
    simp [readStr_serStr k rest h]
  | DirectMessage src content =>
    obtain ⟨h1, h2⟩ := h
    unfold serResponse readResponse
    rw [List.append_assoc, List.append_assoc,
        readU32LE_u32ToLE 2 _ (by norm_num)]
    simp only [readStr_serStr src _ h1]
    simp [readStr_serStr content rest h2]
  | Channel op chan =>
    obtain ⟨h1, h2⟩ := h
    unfold serResponse readResponse
    rw [List.append_assoc, List.append_assoc,
        readU32LE_u32ToLE 3 _ (by norm_num)]
    simp only [readChanOp_ser op _ h1]
    simp [readStr_serStr chan rest h2]
  | AckJoin chan users =>
    obtain ⟨h1, h2, h3⟩ := h
    unfold serResponse readResponse
    rw [List.append_assoc, List.append_assoc,
        readU32LE_u32ToLE 4 _ (by norm_num)]
    simp only [readStr_serStr chan _ h1]
    simp [readStrList_serStrList users rest h2 h3]
  | AckLeave s =>
    unfold serResponse readResponse
    rw [List.append_assoc, readU32LE_u32ToLE 5 _ (by norm_num)]
    simp [readStr_serStr s rest h]
  | AckConnect s =>
    unfold serResponse readResponse
    rw [List.append_assoc, readU32LE_u32ToLE 6 _ (by norm_num)]
    simp [readStr_serStr s rest h]
  | Error s =>
    unfold serResponse readResponse
    rw [List.append_assoc, readU32LE_u32ToLE 7 _ (by norm_num)]
    simp [readStr_serStr s rest h]

theorem desRequest_ser (v : Request) (h : v.wf) :
    desRequest (serRequest v) = some v := by
  unfold desRequest
  rw [show serRequest v = serRequest v ++ [] by simp, readRequest_ser v [] h]

theorem desResponse_ser (v : Response) (h : v.wf) :
    desResponse (serResponse v) = some v := by
  unfold desResponse
  rw [show serResponse v = serResponse v ++ [] by simp, readResponse_ser v [] h]

theorem recvRequest_frame (n : Nat) (payload rest : List Nat)
    (hn : n < 2 ^ 32) (hlen : payload.length = n) :
    recvRequest (u32ToBE n ++ (payload ++ rest)) =
      some (desRequest payload, rest) := by
  subst hlen
  unfold u32ToBE recvRequest
  have hb : payload.length / 2 ^ 24 % 256 * 2 ^ 24 +
      payload.length / 2 ^ 16 % 256 * 2 ^ 16 +
      payload.length / 2 ^ 8 % 256 * 2 ^ 8 + payload.length % 256 =
      payload.length := by omega
  simp only [List.cons_append, List.nil_append, hb]
  rw [readBytes_exact payload rest]

theorem recvResponse_frame (n : Nat) (payload rest : List Nat)
    (hn : n < 2 ^ 32) (hlen : payload.length = n) :
    recvResponse (u32ToBE n ++ (payload ++ rest)) =
      some (desResponse payload, rest) := by
  subst hlen
  unfold u32ToBE recvResponse
  have hb : payload.length / 2 ^ 24 % 256 * 2 ^ 24 +
      payload.length / 2 ^ 16 % 256 * 2 ^ 16 +
      payload.length / 2 ^ 8 % 256 * 2 ^ 8 + payload.length % 256 =
      payload.length := by omega
  simp only [List.cons_append, List.nil_append, hb]
  rw [readBytes_exact payload rest]

end Wire

namespace Srv

/-- Mirrors `enum ChanOp` at the server level; nicknames and message bodies
are abstracted to Lean `String`s (their byte-level encoding is handled by
the `Wire` namespace). -/
inductive ChanOp : Type where
  | Message : String → String → ChanOp
  | UserAdd : String → ChanOp
  | UserDel : String → ChanOp
deriving DecidableEq, Repr

/-- Mirrors `enum Response` at the server level.  `Channel op chan` carries
the `op` field first and the `chan` field second, as in the source. -/
inductive Response : Type where
  | Ack : Response
  | Secure : List Nat → Response
  | DirectMessage : String → String → Response
  | Channel : ChanOp → String → Response
  | AckJoin : String → List String → Response
  | AckLeave : String → Response
  | AckConnect : String → Response
  | Error : String → Response
deriving DecidableEq, Repr

/-- Mirrors `enum MessageReceiver` at the server level. -/
inductive MessageReceiver : Type where
  | User : String → MessageReceiver
  | Channel : String → MessageReceiver
deriving DecidableEq, Repr

/-- Non-handshake requests dispatched by the `process` loop in
`server/src/main.rs` (the `Secure` / `Shared` key-exchange arms manipulate
cryptographic state and are outside this model). -/
inductive Req : Type where
  | Connect : String → Req
  | JoinChan : String → Req
  | LeaveChan : String → Req
  | Message : MessageReceiver → String → Req
deriving DecidableEq, Repr

/-- Mirrors `fn error` from `server/src/main.rs`. -/
def error (message : String) : Response := Response.Error message

/-- Subscriber lists of the channel map: the `Vec<U>` inside each
`BroadcastSenderWithList`, in push order. -/
abbrev Subs := List String

/-- The channel map `DBChan = HashMap<String, BroadcastSenderWithList<..>>`,
modelled as an association list keyed by channel name; only the
subscriber-list component of each topic is tracked. -/
abbrev Chans := List (String × Subs)

/-- HashMap lookup on the association-list model. -/
def lookupChan : Chans → String → Option Subs
  | [], _ => none
  | (c, subs) :: t, ch => if c = ch then some subs else lookupChan t ch

/-- HashMap in-place update (`get_mut`) on the association-list model. -/
def setChan : Chans → String → Subs → Chans
  | [], _, _ => []
  | (c, subs) :: t, ch, v =>
    if c = ch then (ch, v) :: t else (c, subs) :: setChan t ch v

/-- Mirrors `BroadcastSenderWithList::subscribe` from
`mini-irc-protocol/src/lib.rs`: returns `None` when the identity is already
in the subscriber list, otherwise pushes it and returns the new receiver,
represented here by the updated subscriber list the receiver shares. -/
def subscribe (identity : String) (subs : Subs) : Option Subs :=
  if identity ∈ subs then none else some (subs ++ [identity])

/-- Mirrors the `Drop` impl of `BroadcastReceiverWithList`:
`retain(|v| v != identifier)` on the shared subscriber list. -/
def dropReceiver (identifier : String) (subs : Subs) : Subs :=
  subs.filter fun v => v ≠ identifier

/-- The server's global state: `db` is the nickname `HashSet<String>`
(modelled as a list, membership up to `∈`), `chans` the channel map. -/
structure ServerState : Type where
  db : List String
  chans : Chans
deriving DecidableEq, Repr

/-- Per-session mutable locals of `process`: the authenticated nickname
(`""` until `Connect` succeeds) and the `channels` vector of joined rooms. -/
structure SessionState : Type where
  user : String
  channels : List String
deriving DecidableEq, Repr

/-- Mirrors `fn connect_user`: `HashSet::insert` returns `true` exactly when
the nickname was absent, in which case the `AckConnect` greeting is
produced; otherwise the set is untouched and `None` is returned. -/
def connect_user (username : String) (db : List String) :
    Option Response × List String :=
  if username ∈ db then (none, db)
  else (some (Response.AckConnect "Welcome"), username :: db)

/-- Mirrors `fn disconnect_user`: remove the nickname unless it is empty. -/
def disconnect_user (username : String) (db : List String) : List String :=
  if username = "" then db else db.filter fun v => v ≠ username

/-- Mirrors `fn add_user_to_chan`: when the channel exists, subscribe to it
(`None` on a duplicate identity); otherwise create a fresh topic, subscribe,
and insert it into the map.  The first component is the subscriber list the
returned receiver shares (the `into_subscribers()` snapshot), `none` when
`subscribe` refused. -/
def add_user_to_chan (username channel : String) (chans : Chans) :
    Option Subs × Chans :=
  match lookupChan chans channel with
  | some subs =>
    match subscribe username subs with
    | none => (none, chans)
    | some subs2 => (some subs2, setChan chans channel subs2)
  | none => (some [username], chans ++ [(channel, [username])])

/-- Mirrors `fn message_to_chan`: builds the chat room event. -/
def message_to_chan (username channel content : String) : Response :=
  Response.Channel (ChanOp.Message username content) channel

/-- An event handed to `BroadcastSenderWithList::send` on a named channel's
topic; the broadcast delivers it once to every receiver subscribed to that
channel at send time. -/
abbrev Published := String × Response

/-- Outcome of one iteration of the `process` loop on an inbound request. -/
structure StepOut : Type where
  response : Response
  sess : SessionState
  srv : ServerState
  published : List Published
deriving DecidableEq, Repr

/-- Result of one iteration: a normal reply, or a panic of the session task
(`unwrap()` on `None` / `todo!()`), which kills the task without sending any
response and without running the teardown code after the loop. -/
inductive StepResult : Type where
  | ok : StepOut → StepResult
  | panicked : StepResult
deriving DecidableEq, Repr

/-- Mirrors the request-dispatch `match rq` of the `process` loop in
`server/src/main.rs`, one arm per request kind:

* `Connect`: `connect_user`; on success the session records the nickname;
  on failure it replies `Error("Invalid username")` and changes nothing.
* `JoinChan`: requires a nickname; `add_user_to_chan`, then the
  `into_subscribers()` snapshot is taken from the new receiver, a
  `UserAdd(user)` event is sent to the channel's topic, the channel is
  pushed onto the session's `channels`, and the reply is
  `AckJoin { chan, users }`; a refused subscribe replies
  `Error("User already in channel")`.
* `LeaveChan`: requires a nickname; `remove_user_from_chan` does
  `db_chan.get_mut(&channel).unwrap()` — a missing channel panics the
  task — then sends `UserDel(user)` to the topic; reply `AckLeave(user)`.
* `Message` to a channel: requires a nickname; builds the event with
  `message_to_chan`, sends it via `get_mut(&channel).unwrap()` — a missing
  channel panics — and echoes the same event as the direct response.
* `Message` to a user: `todo!()`, always a panic. -/
def processRequest (rq : Req) (sess : SessionState) (srv : ServerState) :
    StepResult :=
  match rq with
  | .Connect username =>
    match connect_user username srv.db with
    | (some res, db2) =>
      .ok ⟨res, { sess with user := username }, { srv with db := db2 }, []⟩
    | (none, _) => .ok ⟨error "Invalid username", sess, srv, []⟩
  | .JoinChan channel =>
    if sess.user = "" then
      .ok ⟨error "Please connect first", sess, srv, []⟩
    else
      match add_user_to_chan sess.user channel srv.chans with
      | (some users, chans2) =>
        .ok ⟨Response.AckJoin channel users,
             { sess with channels := sess.channels ++ [channel] },
             { srv with chans := chans2 },
             [(channel, Response.Channel (ChanOp.UserAdd sess.user) channel)]⟩
      | (none, chans2) =>
        .ok ⟨error "User already in channel", sess, { srv with chans := chans2 }, []⟩
  | .LeaveChan channel =>
    if sess.user = "" then
      .ok ⟨error "Please connect first", sess, srv, []⟩
    else
      match lookupChan srv.chans channel with
      | none => .panicked
      | some _ =>
        .ok ⟨Response.AckLeave sess.user, sess, srv,
             [(channel, Response.Channel (ChanOp.UserDel sess.user) channel)]⟩
  | .Message (.Channel channel) content =>
    if sess.user = "" then
      .ok ⟨error "Please connect first", sess, srv, []⟩
    else
      match lookupChan srv.chans channel with
      | none => .panicked
      | some _ =>
        .ok ⟨message_to_chan sess.user channel content, sess, srv,
             [(channel, message_to_chan sess.user channel content)]⟩
  | .Message (.User _) _ => .panicked

/-- Mirrors `let rq = val.unwrap().unwrap()` at the top of the `process`
loop: an `Err` from `recv` breaks out of the loop into the teardown path,
but an `Ok(None)` (well-framed malformed payload) hits the second `unwrap`
and panics the session task. -/
inductive ReadResult : Type where
  | closed : ReadResult
  | panicked : ReadResult
  | request : StepResult → ReadResult
deriving DecidableEq, Repr

/-- Dispatches on the value returned by `typed_reader.recv()`:
`none` models `Err(_)`, `some none` models `Ok(None)`, `some (some rq)`
models `Ok(Some(rq))`. -/
def handleRead (val : Option (Option Req)) (sess : SessionState)
    (srv : ServerState) : ReadResult :=
  match val with
  | none => .closed
  | some none => .panicked
  | some (some rq) => .request (processRequest rq sess srv)

/-- One step of the forwarding task spawned per join: either detach and
stop, or forward the event into the session's mailbox. -/
inductive ForwardAction : Type where
  | stop : ForwardAction
  | forward : Response → ForwardAction
deriving DecidableEq, Repr

/-- Mirrors the loop body of the forwarding task in the `JoinChan` arm: a
`Channel { op: UserDel(target), .. }` event with `target == user` breaks the
loop without forwarding; every other event is sent on into the mailbox. -/
def forwardStep (user : String) (m : Response) : ForwardAction :=
  match m with
  | .Channel (.UserDel target) _ =>
    if target = user then .stop else .forward m
  | _ => .forward m

/-- Mirrors the `rx.recv()` select arm of the `process` loop: a mailbox
`Channel { op: Message { from: target, .. }, .. }` event with
`target == user` is dropped; any other `Channel` event is forwarded to the
client; a non-`Channel` mailbox value is dropped. -/
def mailboxFilter (user : String) (m : Response) : Option Response :=
  match m with
  | .Channel (.Message target _) _ =>
    if target ≠ user then some m else none
  | .Channel _ _ => some m
  | _ => none

/-- Composition of the two filters on the path from a room broadcast to the
client: what the session's own forwarding task plus mailbox arm make of one
event delivered by the topic. -/
def deliverEvent (user : String) (m : Response) : Option Response :=
  match forwardStep user m with
  | .stop => none
  | .forward m2 => mailboxFilter user m2

/-- Operations the server performs on one topic's subscriber list:
`BroadcastSenderWithList::subscribe` and the receiver `Drop`. -/
inductive SubOp : Type where
  | sub : String → SubOp
  | unsub : String → SubOp
deriving DecidableEq, Repr

/-- Effect of one operation on the shared subscriber list (a refused
subscribe leaves the list untouched). -/
def applySubOp (subs : Subs) : SubOp → Subs
  | .sub id =>
    match subscribe id subs with
    | none => subs
    | some subs2 => subs2
  | .unsub id => dropReceiver id subs

/-- Subscriber list reached from the empty topic by a sequence of
subscribe / receiver-drop operations. -/
def runSubOps (ops : List SubOp) : Subs :=
  ops.foldl applySubOp []

end Srv

namespace Srv

theorem dropReceiver_nodup (id : String) (subs : Subs) (h : subs.Nodup) :
    (dropReceiver id subs).Nodup :=
  h.filter _

theorem applySubOp_nodup (subs : Subs) (op : SubOp) (h : subs.Nodup) :
    (applySubOp subs op).Nodup := by
  cases op with
  | sub id =>
    unfold applySubOp subscribe
    by_cases hm : id ∈ subs
    · simpa [hm]
    · simp only [hm, if_false]
      simp [List.nodup_append, h, hm]
  | unsub id => exact dropReceiver_nodup id subs h

theorem foldl_applySubOp_nodup (ops : List SubOp) (subs : Subs)
    (h : subs.Nodup) : (ops.foldl applySubOp subs).Nodup := by
  induction ops generalizing subs with
  | nil => exact h
  | cons op t ih => exact ih (applySubOp subs op) (applySubOp_nodup subs op h)

theorem runSubOps_nodup (ops : List SubOp) : (runSubOps ops).Nodup :=
  foldl_applySubOp_nodup ops [] List.nodup_nil

theorem filter_ne_eq_erase (l : List String) (a : String) (h : l.Nodup) :
    (l.filter fun v => v ≠ a) = l.erase a := by
  induction l with
  | nil => simp
  | cons x t ih =>
    rw [List.nodup_cons] at h
    by_cases hxa : x = a
    · subst hxa
      rw [List.erase_cons_head]
      have hfix : (t.filter fun v => v ≠ x) = t :=
        List.filter_eq_self.mpr fun b hb => by
          simp only [ne_eq, decide_eq_true_eq]
          intro e
          exact h.1 (e ▸ hb)
      simp only [List.filter_cons, ne_eq, decide_not]
      simp [hfix]
      intro a ha e
      exact h.1 (e ▸ ha)
    · rw [List.erase_cons_tail (by simpa using hxa)]
      have hrec := ih h.2
      simp only [ne_eq, decide_not] at hrec ⊢
      simp [hxa, hrec]

end Srv

open Srv in
/-- C4: when nickname `n` is already held by a connected session
(`n ∈ srv.db`), a `Connect(n)` from any other session is answered with
`Error("Invalid username")`, the nickname registry is unchanged, the
session state (in particular its `user` field, so an unauthenticated
session stays unauthenticated and may retry) is unchanged, and nothing is
broadcast. -/
theorem connect_duplicate_rejected (n : String) (sess : SessionState)
    (srv : ServerState) (h : n ∈ srv.db) :
    processRequest (.Connect n) sess srv =
      .ok ⟨.Error "Invalid username", sess, srv, []⟩ := by
  simp [processRequest, connect_user, h, error]

/-- Witness for `connect_duplicate_rejected` at a concrete registry. -/
theorem connect_duplicate_rejected_witness :
    Srv.processRequest (.Connect "alice") ⟨"", []⟩ ⟨["alice"], []⟩ =
      .ok ⟨.Error "Invalid username", ⟨"", []⟩, ⟨["alice"], []⟩, []⟩ :=
  connect_duplicate_rejected "alice" ⟨"", []⟩ ⟨["alice"], []⟩ (by simp)

open Srv in
/-- C5: an authenticated session `user` sending to an existing room `room`
gets the `Message{from: user, content}` room event exactly once, as the
direct response to the request; the same event is handed to the room's
topic exactly once; the copy arriving in `user`'s own mailbox is suppressed
by the mailbox filter (never forwarded to `user`'s client), while every
subscriber with a different nickname has the event pass its forwarding task
and mailbox filter verbatim, so it receives it exactly once. -/
theorem message_to_room_delivery (user room content other : String)
    (channels : List String) (srv : ServerState) (subs : Subs)
    (hu : user ≠ "") (hc : lookupChan srv.chans room = some subs)
    (hother : other ≠ user) :
    processRequest (.Message (.Channel room) content) ⟨user, channels⟩ srv =
      .ok ⟨.Channel (.Message user content) room, ⟨user, channels⟩, srv,
           [(room, .Channel (.Message user content) room)]⟩ ∧
    deliverEvent user (.Channel (.Message user content) room) = none ∧
    deliverEvent other (.Channel (.Message user content) room) =
      some (.Channel (.Message user content) room) := by
  refine ⟨?_, ?_, ?_⟩
  · simp [processRequest, hu, hc, message_to_chan]
  · simp [deliverEvent, forwardStep, mailboxFilter]
  · simp [deliverEvent, forwardStep, mailboxFilter]
    exact fun e => hother e.symm

/-- Witness for `message_to_room_delivery` at concrete inputs. -/
theorem message_to_room_delivery_witness :
    Srv.processRequest (.Message (.Channel "general") "hi") ⟨"alice", ["general"]⟩
        ⟨["alice", "bob"], [("general", ["alice", "bob"])]⟩ =
      .ok ⟨.Channel (.Message "alice" "hi") "general", ⟨"alice", ["general"]⟩,
           ⟨["alice", "bob"], [("general", ["alice", "bob"])]⟩,
           [("general", .Channel (.Message "alice" "hi") "general")]⟩ ∧
    Srv.deliverEvent "alice" (.Channel (.Message "alice" "hi") "general") = none ∧
    Srv.deliverEvent "bob" (.Channel (.Message "alice" "hi") "general") =
      some (.Channel (.Message "alice" "hi") "general") :=
  message_to_room_delivery "alice" "general" "hi" "bob" ["general"]
    ⟨["alice", "bob"], [("general", ["alice", "bob"])]⟩ ["alice", "bob"]
    (by decide) (by decide) (by decide)

open Srv in
/-- C6 (code bug): the `Message { to: User(_), .. }` arm of `process` is
`todo!()`, so the session task panics whether or not the named user is
connected; no `DirectMessage` is delivered and no `Error` response is sent.
Evaluated here at the failing inputs: "bob" is connected in the first
conjunct, "carol" is not connected in the second. -/
theorem direct_message_panics :
    processRequest (.Message (.User "bob") "hi") ⟨"alice", []⟩
      ⟨["alice", "bob"], []⟩ = .panicked ∧
    processRequest (.Message (.User "carol") "hi") ⟨"alice", []⟩
      ⟨["alice", "bob"], []⟩ = .panicked :=
  ⟨rfl, rfl⟩

open Srv in
/-- C3 (code bug): two of the spec's "protocol errors" panic the session
task instead of producing an `Error(text)` with the connection open:
leaving (or messaging) a room that was never created hits
`db_chan.get_mut(&channel).unwrap()` on `None`, and a well-framed but
malformed plaintext payload makes `recv` return `Ok(None)`, which the loop
immediately unwraps (`val.unwrap().unwrap()`).  Evaluated at the failing
inputs; the last conjunct shows the byte level: frame `[0,0,0,1]` plus the
one-byte payload `[99]` is well-framed, deserializes to no value, and is
returned as `Ok(None)`. -/
theorem protocol_errors_panic :
    processRequest (.LeaveChan "ghost") ⟨"alice", []⟩ ⟨["alice"], []⟩ =
      .panicked ∧
    processRequest (.Message (.Channel "ghost") "hi") ⟨"alice", []⟩
      ⟨["alice"], []⟩ = .panicked ∧
    handleRead (some none) ⟨"alice", []⟩ ⟨["alice"], []⟩ = .panicked ∧
    Wire.recvRequest [0, 0, 0, 1, 99] = some (none, []) :=
  ⟨rfl, rfl, rfl, rfl⟩

open Srv in
/-- C10: the forwarding task stops, without forwarding, exactly on a
`UserDel` event naming its own session's nickname, so after a `LeaveRoom`
the client receives `AckLeave` (the direct response, with the `UserDel`
broadcast to the topic) but its own `UserDel` never reaches its mailbox;
a `UserDel` naming a different nickname is forwarded and passes the mailbox
filter. -/
theorem user_del_detaches (user target room : String)
    (channels : List String) (srv : ServerState) (subs : Subs)
    (hu : user ≠ "") (hc : lookupChan srv.chans room = some subs)
    (ht : target ≠ user) :
    forwardStep user (.Channel (.UserDel user) room) = .stop ∧
    deliverEvent user (.Channel (.UserDel user) room) = none ∧
    forwardStep user (.Channel (.UserDel target) room) =
      .forward (.Channel (.UserDel target) room) ∧
    deliverEvent user (.Channel (.UserDel target) room) =
      some (.Channel (.UserDel target) room) ∧
    processRequest (.LeaveChan room) ⟨user, channels⟩ srv =
      .ok ⟨.AckLeave user, ⟨user, channels⟩, srv,
           [(room, .Channel (.UserDel user) room)]⟩ := by
  refine ⟨?_, ?_, ?_, ?_, ?_⟩
  · simp [forwardStep]
  · simp [deliverEvent, forwardStep]
  · simp [forwardStep, ht]
  · simp [deliverEvent, forwardStep, mailboxFilter, ht]
  · simp [processRequest, hu, hc]

/-- Witness for `user_del_detaches` at concrete inputs. -/
theorem user_del_detaches_witness :
    Srv.forwardStep "alice" (.Channel (.UserDel "alice") "general") = .stop ∧
    Srv.deliverEvent "alice" (.Channel (.UserDel "alice") "general") = none ∧
    Srv.forwardStep "alice" (.Channel (.UserDel "bob") "general") =
      .forward (.Channel (.UserDel "bob") "general") ∧
    Srv.deliverEvent "alice" (.Channel (.UserDel "bob") "general") =
      some (.Channel (.UserDel "bob") "general") ∧
    Srv.processRequest (.LeaveChan "general") ⟨"alice", ["general"]⟩
        ⟨["alice"], [("general", ["alice"])]⟩ =
      .ok ⟨.AckLeave "alice", ⟨"alice", ["general"]⟩,
           ⟨["alice"], [("general", ["alice"])]⟩,
           [("general", .Channel (.UserDel "alice") "general")]⟩ :=
  user_del_detaches "alice" "bob" "general" ["general"]
    ⟨["alice"], [("general", ["alice"])]⟩ ["alice"]
    (by decide) (by decide) (by decide)

open Srv in
/-- C1 (counterexample): with room "general" whose subscribers are exactly
`["alice"]`, "bob" joining gets `AckJoin { general, ["alice", "bob"] }` —
the member snapshot is taken after `subscribe` pushed the joiner, so it is
not `["alice"]` — and the `UserAdd("bob")` event, sent to the topic after
"bob" subscribed, passes bob's own forwarding task and mailbox filter
(neither filters `UserAdd`), so bob does receive his own join event. -/
theorem join_snapshot_counterexample :
    processRequest (.JoinChan "general") ⟨"bob", []⟩
        ⟨["alice", "bob"], [("general", ["alice"])]⟩ =
      .ok ⟨.AckJoin "general" ["alice", "bob"], ⟨"bob", ["general"]⟩,
           ⟨["alice", "bob"], [("general", ["alice", "bob"])]⟩,
           [("general", .Channel (.UserAdd "bob") "general")]⟩ ∧
    (["alice", "bob"] : List String) ≠ ["alice"] ∧
    deliverEvent "bob" (.Channel (.UserAdd "bob") "general") =
      some (.Channel (.UserAdd "bob") "general") :=
  ⟨rfl, by decide, rfl⟩

open Srv in
/-- C1 (amended): when `user` joins room `room` whose current subscribers
are `subs` (with `user ∉ subs`), the `UserJoined(user)` event is published
once to the room's topic, whose subscriber list is now `subs ++ [user]` —
so it reaches the existing subscribers and also `user` itself, whose
pipeline forwards it — and the `JoinAck` reports the member list as of
after the join, `subs ++ [user]`, which contains the joiner. -/
theorem join_snapshot_includes_joiner (user room : String)
    (channels : List String) (db : List String) (chans : Chans) (subs : Subs)
    (hu : user ≠ "") (hc : lookupChan chans room = some subs)
    (hmem : user ∉ subs) :
    processRequest (.JoinChan room) ⟨user, channels⟩ ⟨db, chans⟩ =
      .ok ⟨.AckJoin room (subs ++ [user]), ⟨user, channels ++ [room]⟩,
           ⟨db, setChan chans room (subs ++ [user])⟩,
           [(room, .Channel (.UserAdd user) room)]⟩ ∧
    user ∈ subs ++ [user] ∧
    deliverEvent user (.Channel (.UserAdd user) room) =
      some (.Channel (.UserAdd user) room) := by
  refine ⟨?_, by simp, ?_⟩
  · simp [processRequest, hu, add_user_to_chan, hc, subscribe, hmem]
  · simp [deliverEvent, forwardStep, mailboxFilter]

/-- Witness for `join_snapshot_includes_joiner` at concrete inputs. -/
theorem join_snapshot_includes_joiner_witness :
    Srv.processRequest (.JoinChan "general") ⟨"carol", []⟩
        ⟨["alice", "carol"], [("general", ["alice"])]⟩ =
      .ok ⟨.AckJoin "general" ["alice", "carol"], ⟨"carol", ["general"]⟩,
           ⟨["alice", "carol"], [("general", ["alice", "carol"])]⟩,
           [("general", .Channel (.UserAdd "carol") "general")]⟩ ∧
    "carol" ∈ ["alice", "carol"] ∧
    Srv.deliverEvent "carol" (.Channel (.UserAdd "carol") "general") =
      some (.Channel (.UserAdd "carol") "general") :=
  join_snapshot_includes_joiner "carol" "general" [] ["alice", "carol"]
    [("general", ["alice"])] ["alice"] (by decide) (by decide) (by decide)

open Srv in
/-- C8: `add_user_to_chan` (the server's `joinRoom`) behaves as specified:
if the nickname already subscribes to the room, it returns nothing and the
channel map is unchanged, and the `JoinChan` arm answers the
"already in room" error (`Error("User already in channel")`) without
touching any state; if the room is absent it is created with the nickname
as sole subscriber; if the room exists and the nickname is new it is
appended and the returned receiver carries the member-list snapshot
`subs ++ [user]`. -/
theorem join_room_cases (user room : String) (chans : Chans) :
    (∀ subs, lookupChan chans room = some subs → user ∈ subs →
      add_user_to_chan user room chans = (none, chans)) ∧
    (lookupChan chans room = none →
      add_user_to_chan user room chans =
        (some [user], chans ++ [(room, [user])])) ∧
    (∀ subs, lookupChan chans room = some subs → user ∉ subs →
      add_user_to_chan user room chans =
        (some (subs ++ [user]), setChan chans room (subs ++ [user]))) ∧
    (∀ subs channels db, lookupChan chans room = some subs → user ∈ subs →
      user ≠ "" →
      processRequest (.JoinChan room) ⟨user, channels⟩ ⟨db, chans⟩ =
        .ok ⟨.Error "User already in channel", ⟨user, channels⟩,
             ⟨db, chans⟩, []⟩) := by
  refine ⟨?_, ?_, ?_, ?_⟩
  · intro subs hc hm
    simp [add_user_to_chan, hc, subscribe, hm]
  · intro hc
    simp [add_user_to_chan, hc]
  · intro subs hc hm
    simp [add_user_to_chan, hc, subscribe, hm]
  · intro subs channels db hc hm hu
    simp [processRequest, hu, add_user_to_chan, hc, subscribe, hm, error]

/-- Witness for `join_room_cases` at concrete inputs, one per branch. -/
theorem join_room_cases_witness :
    Srv.add_user_to_chan "alice" "general" [("general", ["alice"])] =
      (none, [("general", ["alice"])]) ∧
    Srv.add_user_to_chan "bob" "rust" [("general", ["alice"])] =
      (some ["bob"], [("general", ["alice"]), ("rust", ["bob"])]) ∧
    Srv.add_user_to_chan "bob" "general" [("general", ["alice"])] =
      (some ["alice", "bob"], [("general", ["alice", "bob"])]) ∧
    Srv.processRequest (.JoinChan "general") ⟨"alice", ["general"]⟩
        ⟨["alice"], [("general", ["alice"])]⟩ =
      .ok ⟨.Error "User already in channel", ⟨"alice", ["general"]⟩,
           ⟨["alice"], [("general", ["alice"])]⟩, []⟩ :=
  ⟨(join_room_cases "alice" "general" [("general", ["alice"])]).1
      ["alice"] (by decide) (by decide),
   (join_room_cases "bob" "rust" [("general", ["alice"])]).2.1 (by decide),
   (join_room_cases "bob" "general" [("general", ["alice"])]).2.2.1
      ["alice"] (by decide) (by decide),
   (join_room_cases "alice" "general" [("general", ["alice"])]).2.2.2
      ["alice"] ["general"] ["alice"] (by decide) (by decide) (by decide)⟩

open Srv in
/-- C9: for every sequence of subscribe and receiver-drop operations
starting from the empty topic, the shared subscriber list stays duplicate
free, and dropping a receiver removes exactly its own identity (the
`retain` over the whole list equals erasing the single occurrence). -/
theorem subscribers_nodup_invariant (ops : List SubOp) :
    (runSubOps ops).Nodup ∧
    ∀ id, applySubOp (runSubOps ops) (.unsub id) = (runSubOps ops).erase id := by
  have hnd := runSubOps_nodup ops
  exact ⟨hnd, fun id => filter_ne_eq_erase (runSubOps ops) id hnd⟩

open Wire in
/-- C2 (amended): sending a constructible `Request` and a constructible
`Response` through the framed codec with no shared key and receiving them
back from the resulting byte stream yields `Ok(Some v)` with `v` equal to
the original, for every value whose bincode payload is shorter than
`2 ^ 32` bytes (the frame header truncates the payload length to `u32`, so
values of at least 4 GiB are mis-framed; see the counterexample). -/
theorem codec_roundtrip (rq : Request) (rs : Response)
    (restA restB : List Nat) (h1 : rq.wf) (h2 : rs.wf)
    (h3 : (serRequest rq).length < 2 ^ 32)
    (h4 : (serResponse rs).length < 2 ^ 32) :
    recvRequest (sendRequest rq ++ restA) = some (some rq, restA) ∧
    recvResponse (sendResponse rs ++ restB) = some (some rs, restB) := by
  constructor
  · rw [sendRequest, Nat.mod_eq_of_lt h3, List.append_assoc,
        recvRequest_frame _ _ _ h3 rfl, desRequest_ser rq h1]
  · rw [sendResponse, Nat.mod_eq_of_lt h4, List.append_assoc,
        recvResponse_frame _ _ _ h4 rfl, desResponse_ser rs h2]

/-- Witness for `codec_roundtrip` at concrete values (a `Connect` request
with nickname bytes "ab" and an `AckJoin` response with one member). -/
theorem codec_roundtrip_witness :
    Wire.recvRequest (Wire.sendRequest (.Connect [97, 98]) ++ []) =
      some (some (.Connect [97, 98]), []) ∧
    Wire.recvResponse (Wire.sendResponse (.AckJoin [103] [[97]]) ++ []) =
      some (some (.AckJoin [103] [[97]]), []) :=
  codec_roundtrip (.Connect [97, 98]) (.AckJoin [103] [[97]]) [] []
    (by decide) (by decide) (by decide) (by decide)

open Wire in
/-- A frame whose header announces zero payload bytes: `recv` reads the 4
header bytes, reads an empty payload, fails to deserialize it, and returns
`Ok(None)` leaving the whole tail unconsumed. -/
theorem recvRequest_zero_header (b : List Nat) :
    Wire.recvRequest (0 :: 0 :: 0 :: 0 :: b) = some (none, b) := by
  show (match Wire.readBytes (0 * 2 ^ 24 + 0 * 2 ^ 16 + 0 * 2 ^ 8 + 0) b with
    | none => none
    | some (payload, rest2) => some (Wire.desRequest payload, rest2)) =
    some (none, b)
  norm_num [Wire.readBytes, Wire.desRequest, Wire.readRequest, Wire.readU32LE]

/-- A constructible `Request` whose bincode payload is exactly `2 ^ 32`
bytes long: `Connect` of a nickname of `2 ^ 32 - 12` bytes (4 tag bytes +
8 length bytes + the string). -/
def hugeConnect : Wire.Request := .Connect (List.replicate (2 ^ 32 - 12) 0)

open Wire in
/-- C2 (counterexample): for `hugeConnect` the payload length is `2 ^ 32`,
`data.len() as u32` truncates it to `0`, the receiver therefore reads an
empty payload, deserialization of the empty buffer fails, and `recv`
returns `Ok(None)` with the whole bincode payload left unread — not
`Ok(Some v)`.  The round-trip claim is false for this constructible value. -/
theorem codec_roundtrip_counterexample :
    recvRequest (sendRequest hugeConnect) =
      some (none, serRequest hugeConnect) ∧
    recvRequest (sendRequest hugeConnect) ≠
      some (some hugeConnect, []) := by
  have hlen : (serRequest hugeConnect).length = 2 ^ 32 := by
    show (u32ToLE 2 ++ serStr (List.replicate (2 ^ 32 - 12) 0)).length = 2 ^ 32
    rw [List.length_append, serStr, List.length_append, List.length_replicate]
    norm_num [u32ToLE, u64ToLE]
  have hsend : sendRequest hugeConnect =
      0 :: 0 :: 0 :: 0 :: serRequest hugeConnect := by
    rw [sendRequest, hlen]
    norm_num [u32ToBE]
  have hrecv : recvRequest (sendRequest hugeConnect) =
      some (none, serRequest hugeConnect) := by
    rw [hsend, recvRequest_zero_header]
  exact ⟨hrecv, by rw [hrecv]; simp⟩

open Wire in
/-- C7: with no shared key, `recv` on a stream beginning with a well-formed
frame — 4 big-endian length bytes for `n` followed by an `n`-byte payload —
consumes exactly those `4 + n` bytes and returns `Ok` of the payload's
deserialization (`Some v` when it deserializes, `None` when plaintext
deserialization fails), leaving the rest of the stream untouched and the
connection alive; a stream with fewer than 4 bytes, or with fewer than `n`
payload bytes after the header, makes the underlying `read_exact` fail,
which `recv` surfaces as a transport error. -/
theorem recv_framing (n : Nat) (payload rest : List Nat)
    (hn : n < 2 ^ 32) (hlen : payload.length = n) :
    recvRequest (u32ToBE n ++ (payload ++ rest)) =
      some (desRequest payload, rest) ∧
    recvResponse (u32ToBE n ++ (payload ++ rest)) =
      some (desResponse payload, rest) ∧
    (∀ b : List Nat, b.length < 4 → recvRequest b = none) ∧
    (∀ short : List Nat, short.length < n →
      recvRequest (u32ToBE n ++ short) = none) := by
  refine ⟨recvRequest_frame n payload rest hn hlen,
          recvResponse_frame n payload rest hn hlen, ?_, ?_⟩
  · intro b hb
    rcases b with _ | ⟨a, _ | ⟨b1, _ | ⟨c, _ | ⟨d, t⟩⟩⟩⟩
    · rfl
    · rfl
    · rfl
    · rfl
    · exfalso
      simp only [List.length_cons] at hb
      omega
  · intro short hshort
    unfold u32ToBE recvRequest
    have hb : n / 2 ^ 24 % 256 * 2 ^ 24 + n / 2 ^ 16 % 256 * 2 ^ 16 +
        n / 2 ^ 8 % 256 * 2 ^ 8 + n % 256 = n := by omega
    simp only [List.cons_append, List.nil_append, hb]
    rw [readBytes_short n short hshort]

/-- Witness for `recv_framing` at a concrete frame: length 1, payload
`[99]` (which deserializes to no `Request` and no `Response`), trailing
stream `[7]`. -/
theorem recv_framing_witness :
    Wire.recvRequest (Wire.u32ToBE 1 ++ ([99] ++ [7])) =
      some (Wire.desRequest [99], [7]) ∧
    Wire.recvResponse (Wire.u32ToBE 1 ++ ([99] ++ [7])) =
      some (Wire.desResponse [99], [7]) ∧
    Wire.recvRequest [0, 0] = none ∧
    Wire.recvRequest (Wire.u32ToBE 1 ++ []) = none := by
  have h := recv_framing 1 [99] [7] (by norm_num) rfl
  exact ⟨h.1, h.2.1, h.2.2.1 [0, 0] (by norm_num),
         h.2.2.2 [] (by norm_num)⟩
